import Mathlib

/-!
Verification of the kle-serial keyboard-layout decoder.

The repository source (src/lib.rs) defines the public data model (Legend,
Switch, Key, Background, Metadata, Keyboard, KeyIterator) together with the
default values and the two serde Deserialize wrappers.  The internal modules
de and utils (the row/token walker, the legend alignment remapping, the
font-size and colour resolution, and the metadata field decoding) are not part
of the provided sources; those parts are modelled from the specification and
are marked as such in their doc comments.

The JSON tree is modelled by an inductive type; the generic floating-point
geometry parameter T is instantiated with the rationals, which supports the
exact arithmetic the walker performs (addition and max).
-/

set_option maxRecDepth 4096

namespace Kle

/-- A generic JSON value, the already-parsed input tree the decoder consumes.
Numbers are modelled as rationals. -/
inductive Json where
  | null
  | bool (b : Bool)
  | num (q : ℚ)
  | str (s : String)
  | arr (elems : List Json)
  | obj (fields : List (String × Json))

/-- An RGBA colour with byte components, mirroring the rgb::RGBA8 alias
(pub type Color = rgb::RGBA8) of src/lib.rs. -/
structure Color where
  r : Nat
  g : Nat
  b : Nat
  a : Nat
deriving DecidableEq

/-- Constructor matching rgb::RGBA8::new. -/
def Color.new (r g b a : Nat) : Color := ⟨r, g, b, a⟩

/-- Number of legends on a key (const NUM_LEGENDS in src/lib.rs). -/
def NUM_LEGENDS : Nat := 12

namespace color

/-- Default background colour #EEEEEE (mod color in src/lib.rs). -/
def BACKGROUND : Color := Color.new 0xEE 0xEE 0xEE 0xFF

/-- Default key colour #CCCCCC (mod color in src/lib.rs). -/
def KEY : Color := Color.new 0xCC 0xCC 0xCC 0xFF

/-- Default legend colour #000000 (mod color in src/lib.rs). -/
def LEGEND : Color := Color.new 0x00 0x00 0x00 0xFF

end color

/-- Modelled from the spec: the default font size produced by
utils::FontSize::default of the missing utils module; per the spec, absent any
directive the default size is 3 (also asserted by test_legend_default). -/
def fontSizeDefault : Nat := 3

/-- Modelled from the spec: every resolved size is clamped to the closed
range [1,9] before being stored on a Legend (utils::FontSize of the missing
utils module). -/
def clampSize (n : Nat) : Nat := min 9 (max 1 n)

/-- A single legend, mirroring struct Legend of src/lib.rs. -/
structure Legend where
  text : String
  size : Nat
  color : Color
deriving DecidableEq

/-- Default legend (impl Default for Legend in src/lib.rs). -/
def Legend.default : Legend :=
  { text := "", size := fontSizeDefault, color := color.LEGEND }

/-- A key switch, mirroring struct Switch of src/lib.rs. -/
structure Switch where
  mount : String
  brand : String
  typ : String
deriving DecidableEq

/-- Default switch (derived Default for Switch in src/lib.rs). -/
def Switch.default : Switch := { mount := "", brand := "", typ := "" }

/-- A single key, mirroring struct Key of src/lib.rs with the generic real
parameter T instantiated at the rationals. -/
structure Key where
  legends : List (Option Legend)
  color : Color
  x : ℚ
  y : ℚ
  width : ℚ
  height : ℚ
  x2 : ℚ
  y2 : ℚ
  width2 : ℚ
  height2 : ℚ
  rotation : ℚ
  rx : ℚ
  ry : ℚ
  profile : String
  key_switch : Switch
  ghosted : Bool
  stepped : Bool
  homing : Bool
  decal : Bool
deriving DecidableEq

/-- Default key (impl Default for Key in src/lib.rs). -/
def Key.default : Key :=
  { legends := List.replicate NUM_LEGENDS none
  , color := color.KEY
  , x := 0, y := 0, width := 1, height := 1
  , x2 := 0, y2 := 0, width2 := 1, height2 := 1
  , rotation := 0, rx := 0, ry := 0
  , profile := ""
  , key_switch := Switch.default
  , ghosted := false, stepped := false, homing := false, decal := false }

instance : Inhabited Key := ⟨Key.default⟩

/-- Background style, mirroring struct Background of src/lib.rs. -/
structure Background where
  name : String
  style : String
deriving DecidableEq

/-- Default background (derived Default for Background in src/lib.rs). -/
def Background.default : Background := { name := "", style := "" }

/-- Layout metadata, mirroring struct Metadata of src/lib.rs. -/
structure Metadata where
  background_color : Color
  background : Background
  radii : String
  name : String
  author : String
  key_switch : Switch
  plate_mount : Bool
  pcb_mount : Bool
  notes : String
deriving DecidableEq

/-- Default metadata (impl Default for Metadata in src/lib.rs). -/
def Metadata.default : Metadata :=
  { background_color := color.BACKGROUND
  , background := Background.default
  , radii := "", name := "", author := ""
  , key_switch := Switch.default
  , plate_mount := false, pcb_mount := false
  , notes := "" }

/-- A deserialised keyboard, mirroring struct Keyboard of src/lib.rs. -/
structure Keyboard where
  metadata : Metadata
  keys : List Key
deriving DecidableEq

/-- Structural decoding errors; per the spec these are the only error kind:
the top-level input is not an array, or an element expected to be a row is
not an array, with positional context. -/
inductive DeError where
  | topLevelNotArray
  | rowNotArray (index : Nat)
deriving DecidableEq

/-- Boolean success test for a decode result. -/
def isOkB {α : Type} : Except DeError α → Bool
  | Except.ok _ => true
  | Except.error _ => false

/-- Projection of a successful decode result. -/
def okPart {α : Type} : Except DeError α → Option α
  | Except.ok a => some a
  | Except.error _ => none

/-- Extraction of a JSON string. -/
def getStr : Json → Option String
  | Json.str s => some s
  | _ => none

/-- Extraction of a JSON number. -/
def getNum : Json → Option ℚ
  | Json.num q => some q
  | _ => none

/-- Extraction of a JSON boolean. -/
def getBool : Json → Option Bool
  | Json.bool b => some b
  | _ => none

/-- Test for a JSON array. -/
def isArr : Json → Bool
  | Json.arr _ => true
  | _ => false

/-- First binding of a field code in a JSON object body. -/
def olookup (fields : List (String × Json)) (k : String) : Option Json :=
  fields.lookup k

/-- Conversion of a JSON rational to a natural number (floor, negatives
to zero), used for alignment codes and font sizes. -/
def ratToNat (q : ℚ) : Nat := q.num.toNat / q.den

/-- Modelled from the spec: splitting a label string on the line-break
character into raw legend lines (performed by the missing de module); an
explicit structural recursion over the character list so that it matches
splitting on the newline separator. -/
def splitAux : List Char → List Char → List String
  | [], acc => [String.mk acc.reverse]
  | c :: cs, acc =>
    if c.toNat == 10 then String.mk acc.reverse :: splitAux cs []
    else splitAux cs (c :: acc)

/-- Splitting a string into its newline-separated lines. -/
def splitLines (s : String) : List String := splitAux s.data []

/-- Value of one hexadecimal digit given as a character code. -/
def hexVal (n : Nat) : Option Nat :=
  if 48 ≤ n ∧ n ≤ 57 then some (n - 48)
  else if 65 ≤ n ∧ n ≤ 70 then some (n - 55)
  else if 97 ≤ n ∧ n ≤ 102 then some (n - 87)
  else none

/-- Modelled from the spec: parsing a CSS hex colour string of the shape
number-sign RRGGBB into an opaque colour (performed by the missing de
module); malformed values yield none and are silently ignored by callers,
per the error-handling design (no condition other than structure is an
error). -/
def parseColor (s : String) : Option Color :=
  match s.data with
  | h :: rest =>
    if h.toNat == 35 then
      match rest.map (fun c => hexVal c.toNat) with
      | [some a, some b, some c, some d, some e, some f] =>
        some (Color.new (16 * a + b) (16 * c + d) (16 * e + f) 0xFF)
      | _ => none
    else none
  | [] => none

/-- Modelled from the spec: the fixed legend-alignment permutation table of
section 4.3, rows indexed by alignment code 0 to 7, columns by raw legend
position 0 to 11; none is the drop sentinel. -/
def LEGEND_MAPPING : List (List (Option Nat)) :=
  [ [some 0, some 6, some 2, some 8, some 9, some 11, some 3, some 5, some 1, some 4, some 7, some 10]
  , [some 1, some 7, none, none, some 9, some 11, some 4, none, none, none, none, some 10]
  , [some 3, none, some 5, none, some 9, some 11, none, none, none, none, none, some 10]
  , [some 4, none, none, none, some 9, some 11, none, none, none, none, none, some 10]
  , [some 0, some 6, some 2, some 8, some 10, none, some 3, some 5, some 1, some 4, some 7, none]
  , [some 1, some 7, none, none, some 10, none, some 4, none, none, none, none, none]
  , [some 3, none, some 5, none, some 10, none, none, none, none, none, none, none]
  , [some 4, none, none, none, some 10, none, none, none, none, none, none, none] ]

/-- Canonical slot assigned to a raw legend position under an alignment
code; none means the line is dropped. -/
def remap (a i : Nat) : Option Nat :=
  ((LEGEND_MAPPING.get? a).bind (fun row => row.get? i)).join

/-- Modelled from the spec: the Key-State accumulator the walker carries
across tokens (the KleProps state of the missing de module): cursor and
geometry, pending one-shot fields, rotation origin, colour and font
directives, and the persistent scalar fields. -/
structure KleProps where
  x : ℚ
  y : ℚ
  w : ℚ
  h : ℚ
  x2 : Option ℚ
  y2 : Option ℚ
  w2 : Option ℚ
  h2 : Option ℚ
  r : ℚ
  rx : ℚ
  ry : ℚ
  clusterX : ℚ
  clusterY : ℚ
  keyColor : Color
  defaultTextColor : Color
  slotColors : List (Option Color)
  profile : String
  mount : String
  brand : String
  typ : String
  ghosted : Bool
  stepped : Bool
  homing : Bool
  decal : Bool
  align : Nat
  fontDefault : Nat
  f2Size : Option Nat
  fontSizes : List (Option Nat)
deriving DecidableEq

/-- Initial walker state: all defaults, alignment 4, font size 3. -/
def initProps : KleProps :=
  { x := 0, y := 0, w := 1, h := 1
  , x2 := none, y2 := none, w2 := none, h2 := none
  , r := 0, rx := 0, ry := 0, clusterX := 0, clusterY := 0
  , keyColor := color.KEY
  , defaultTextColor := color.LEGEND
  , slotColors := List.replicate NUM_LEGENDS none
  , profile := "", mount := "", brand := "", typ := ""
  , ghosted := false, stepped := false, homing := false, decal := false
  , align := 4
  , fontDefault := fontSizeDefault
  , f2Size := none
  , fontSizes := List.replicate NUM_LEGENDS none }

/-- Modelled from the spec: the effect of one modifier object on the walker
state (section 4.2 of the spec, the update step of the missing de module).
Simple scalar fields persist; x and y are cursor deltas; x2, y2, w2 and h2
are stored as pending one-shot values; r, rx and ry update the rotation
origin and reset the cursor onto it; f sets the scalar default and clears
the previous secondary default and per-position sizes, f2 stores the
secondary default that applies to every canonical slot except slot 0, fa
replaces the per-raw-position array; t sets the default legend colour from
its first line and the per-canonical-slot colours from the following lines.
Unknown codes are ignored. -/
def applyProps (s : KleProps) (fs : List (String × Json)) : KleProps :=
  let nOf := fun (k : String) => (olookup fs k).bind getNum
  let sOf := fun (k : String) => (olookup fs k).bind getStr
  let bOf := fun (k : String) => (olookup fs k).bind getBool
  let rotAny := (nOf "r").isSome || (nOf "rx").isSome || (nOf "ry").isSome
  let cX := (nOf "rx").getD s.clusterX
  let cY := (nOf "ry").getD s.clusterY
  let bX := if rotAny then cX else s.x
  let bY := if rotAny then cY else s.y
  let tLines := (sOf "t").map splitLines
  { x := bX + (nOf "x").getD 0
  , y := bY + (nOf "y").getD 0
  , w := (nOf "w").getD s.w
  , h := (nOf "h").getD s.h
  , x2 := match nOf "x2" with | some v => some v | none => s.x2
  , y2 := match nOf "y2" with | some v => some v | none => s.y2
  , w2 := match nOf "w2" with | some v => some v | none => s.w2
  , h2 := match nOf "h2" with | some v => some v | none => s.h2
  , r := (nOf "r").getD s.r
  , rx := (nOf "rx").getD s.rx
  , ry := (nOf "ry").getD s.ry
  , clusterX := cX
  , clusterY := cY
  , keyColor := ((sOf "c").bind parseColor).getD s.keyColor
  , defaultTextColor :=
      (tLines.bind (fun ls => (ls.get? 0).bind parseColor)).getD s.defaultTextColor
  , slotColors :=
      match tLines with
      | none => s.slotColors
      | some ls =>
        (List.range NUM_LEGENDS).map
          (fun i => if i == 0 then none else (ls.get? i).bind parseColor)
  , profile := (sOf "p").getD s.profile
  , mount := (sOf "sm").getD s.mount
  , brand := (sOf "sb").getD s.brand
  , typ := (sOf "st").getD s.typ
  , ghosted := (bOf "g").getD s.ghosted
  , stepped := (bOf "l").getD s.stepped
  , homing := (bOf "n").getD s.homing
  , decal := (bOf "d").getD s.decal
  , align := ((nOf "a").map ratToNat).getD s.align
  , fontDefault := ((nOf "f").map ratToNat).getD s.fontDefault
  , f2Size :=
      match nOf "f2" with
      | some v => some (ratToNat v)
      | none => if (nOf "f").isSome then none else s.f2Size
  , fontSizes :=
      match olookup fs "fa" with
      | some (Json.arr es) =>
        (List.range NUM_LEGENDS).map (fun i => ((es.get? i).bind getNum).map ratToNat)
      | _ =>
        if (nOf "f").isSome then List.replicate NUM_LEGENDS none else s.fontSizes }

/-- Resolved font size for a raw legend position landing in a canonical
slot: the per-raw-position entry set by fa if present, otherwise the
secondary default set by f2 for every canonical slot except slot 0,
otherwise the scalar default; clamped to the closed range [1,9]. -/
def resolvedSize (s : KleProps) (i slot : Nat) : Nat :=
  clampSize (((s.fontSizes.get? i).join).getD
    (match s.f2Size with
     | some v => if slot == 0 then s.fontDefault else v
     | none => s.fontDefault))

/-- Resolved legend colour for a canonical slot: the per-slot entry if set,
otherwise the default legend colour. -/
def resolvedColor (s : KleProps) (slot : Nat) : Color :=
  ((s.slotColors.get? slot).join).getD s.defaultTextColor

/-- One step of legend construction: place a non-empty raw line into its
canonical slot (later raw positions overwrite on collision). -/
def placeLegend (s : KleProps) (acc : List (Option Legend)) (p : Nat × String) :
    List (Option Legend) :=
  if p.2 = "" then acc
  else
    match remap s.align p.1 with
    | none => acc
    | some slot =>
      acc.set slot
        (some { text := p.2, size := resolvedSize s p.1 slot, color := resolvedColor s slot })

/-- Modelled from the spec: building the canonical 12-slot legend array from
the raw legend lines of one label token (section 4.2 step 2 of the spec);
lines beyond 12 are dropped, empty lines produce no legend, the remapper
decides the canonical slot. -/
def buildLegends (s : KleProps) (lines : List String) : List (Option Legend) :=
  ((lines.take NUM_LEGENDS).enum).foldl (placeLegend s) (List.replicate NUM_LEGENDS none)

/-- Modelled from the spec: emission of one key from a label token
(section 4.2 of the spec): snapshot the accumulator into an immutable key,
defaulting absent one-shot fields to 0, 0, width and height; then advance
the cursor by the wider of width and x2 plus width2, and reset the pending
one-shot fields. -/
def emitKey (s : KleProps) (txt : String) : KleProps × Key :=
  let kx2 := s.x2.getD 0
  let ky2 := s.y2.getD 0
  let kw2 := s.w2.getD s.w
  let kh2 := s.h2.getD s.h
  let key : Key :=
    { legends := buildLegends s (splitLines txt)
    , color := s.keyColor
    , x := s.x, y := s.y, width := s.w, height := s.h
    , x2 := kx2, y2 := ky2, width2 := kw2, height2 := kh2
    , rotation := s.r, rx := s.rx, ry := s.ry
    , profile := s.profile
    , key_switch := { mount := s.mount, brand := s.brand, typ := s.typ }
    , ghosted := s.ghosted, stepped := s.stepped, homing := s.homing, decal := s.decal }
  ({ s with
      x := s.x + max s.w (kx2 + kw2)
    , x2 := none, y2 := none, w2 := none, h2 := none }, key)

/-- Modelled from the spec: the effect of one row token on the walker state.
Objects are modifiers, strings are labels and emit one key; any other token
kind is not a recognised token and is ignored (no condition other than
structure is an error). -/
def procToken (s : KleProps) (t : Json) : KleProps × Option Key :=
  match t with
  | Json.obj fs => (applyProps s fs, none)
  | Json.str txt => ((emitKey s txt).1, some (emitKey s txt).2)
  | _ => (s, none)

/-- Walking the tokens of one row in order, collecting emitted keys. -/
def procRowAux : KleProps → List Json → KleProps × List Key
  | s, [] => (s, [])
  | s, t :: ts =>
    ((procRowAux (procToken s t).1 ts).1,
     (match (procToken s t).2 with | some k => [k] | none => []) ++
       (procRowAux (procToken s t).1 ts).2)

/-- Modelled from the spec: advancing the row cursor between rows, y
increases by one unit and x resets to the active rotation origin. -/
def afterRow (s : KleProps) : KleProps := { s with y := s.y + 1, x := s.clusterX }

/-- Walking all rows of the layout in order, collecting emitted keys. -/
def runRows : KleProps → List (List Json) → KleProps × List Key
  | s, [] => (s, [])
  | s, row :: rest =>
    ((runRows (afterRow (procRowAux s row).1) rest).1,
     (procRowAux s row).2 ++ (runRows (afterRow (procRowAux s row).1) rest).2)

/-- Keys produced by walking a parsed layout from the initial state; this is
the collected form of the lazy KleLayoutIterator of the missing de module. -/
def kleKeys (layout : List (List Json)) : List Key := (runRows initProps layout).2

/-- Checking that every remaining top-level element is an array, keeping
positional context for the structural error. -/
def parseRows : Nat → List Json → Except DeError (List (List Json))
  | _, [] => Except.ok []
  | i, Json.arr row :: rest => (parseRows (i + 1) rest).map (fun rs => row :: rs)
  | i, _ :: _ => Except.error (DeError.rowNotArray i)

/-- Modelled from the spec: the KleKeyboard deserializer of the missing de
module. The top-level value must be an array; an optional leading object is
the metadata; every other element must be an array (a row), otherwise the
decode fails with a structural error naming the offending position. -/
def KleKeyboard.parse (j : Json) :
    Except DeError (List (String × Json) × List (List Json)) :=
  match j with
  | Json.arr (Json.obj fields :: rest) => (parseRows 1 rest).map (fun rs => (fields, rs))
  | Json.arr elems => (parseRows 0 elems).map (fun rs => ([], rs))
  | _ => Except.error DeError.topLevelNotArray

/-- Field codes the metadata decoder recognises. -/
def recognizedMetaKeys : List String :=
  ["backcolor", "background", "radii", "name", "author",
   "switchMount", "switchBrand", "switchType", "plate", "pcb", "notes"]

/-- Modelled from the spec: the metadata decoder (section 4.1 of the spec,
the KleMetadata conversion of the missing de module): each field is decoded
from its code when present and takes its documented default when absent;
unknown fields are ignored without error. -/
def metadataOf (fields : List (String × Json)) : Metadata :=
  { background_color :=
      (((olookup fields "backcolor").bind getStr).bind parseColor).getD color.BACKGROUND
  , background :=
      match olookup fields "background" with
      | some (Json.obj bf) =>
        { name := ((olookup bf "name").bind getStr).getD ""
        , style := ((olookup bf "style").bind getStr).getD "" }
      | _ => Background.default
  , radii := ((olookup fields "radii").bind getStr).getD ""
  , name := ((olookup fields "name").bind getStr).getD ""
  , author := ((olookup fields "author").bind getStr).getD ""
  , key_switch :=
      { mount := ((olookup fields "switchMount").bind getStr).getD ""
      , brand := ((olookup fields "switchBrand").bind getStr).getD ""
      , typ := ((olookup fields "switchType").bind getStr).getD "" }
  , plate_mount := ((olookup fields "plate").bind getBool).getD false
  , pcb_mount := ((olookup fields "pcb").bind getBool).getD false
  , notes := ((olookup fields "notes").bind getStr).getD "" }

/-- Deserialisation of a whole keyboard, mirroring the Deserialize
implementation for Keyboard in src/lib.rs: parse the KleKeyboard, convert
the metadata, and collect the layout iterator into the key list. -/
def Keyboard.deserialize (j : Json) : Except DeError Keyboard :=
  Except.map (fun p => { metadata := metadataOf p.1, keys := kleKeys p.2 })
    (KleKeyboard.parse j)

/-- Deserialisation of the key iterator, mirroring the Deserialize
implementation for KeyIterator in src/lib.rs: parse the KleKeyboard,
discard the metadata, and walk the same layout; the result is the collected
sequence of the forward-only iterator. -/
def KeyIterator.deserialize (j : Json) : Except DeError (List Key) :=
  Except.map (fun p => kleKeys p.2) (KleKeyboard.parse j)

end Kle

namespace Kle

/-- Success test on an ok result. -/
@[simp]
lemma isOkB_ok {α : Type} (a : α) : isOkB (Except.ok a) = true := rfl

/-- Success test on an error result. -/
@[simp]
lemma isOkB_error {α : Type} (e : DeError) :
    isOkB (Except.error e : Except DeError α) = false := rfl

/-- Success of a mapped decode result is success of the underlying result. -/
@[simp]
lemma isOkB_map {α β : Type} (f : α → β) (e : Except DeError α) :
    isOkB (Except.map f e) = isOkB e := by cases e <;> rfl

/-- Row checking succeeds exactly when every remaining element is an array. -/
lemma parseRows_isOk : ∀ (es : List Json) (i : Nat),
    isOkB (parseRows i es) = es.all isArr := by
  intro es
  induction es with
  | nil => intro i; rfl
  | cons e rest ih =>
    intro i
    cases e <;>
      simp only [parseRows, isArr, List.all_cons, isOkB_map, isOkB_error, ih,
        Bool.false_and, Bool.true_and]

/-- Claim-side structural condition: the top-level value is an array and
every element other than a leading metadata object is an array. -/
def specStructuralOk : Json → Bool
  | Json.arr (Json.obj _ :: rest) => rest.all isArr
  | Json.arr elems => elems.all isArr
  | _ => false

/-- Success of the KleKeyboard parse is exactly the structural condition. -/
lemma parse_isOk_eq_structuralOk : ∀ j : Json,
    isOkB (KleKeyboard.parse j) = specStructuralOk j := by
  intro j
  cases j with
  | null => rfl
  | bool b => rfl
  | num q => rfl
  | str s => rfl
  | obj fs => rfl
  | arr elems =>
    cases elems with
    | nil => rfl
    | cons hd tl =>
      cases hd <;>
        simp only [KleKeyboard.parse, specStructuralOk, isOkB_map, isOkB_error,
          parseRows_isOk, parseRows, List.all_cons, isArr,
          Bool.false_and, Bool.true_and]

end Kle

namespace Kle

/-- C1: deserialisation of Keyboard and of KeyIterator fails with a
structural error if and only if the top-level JSON value is not an array or
some top-level element other than a leading metadata object is not an array;
in particular the bare value null fails, and no other input condition causes
an error. -/
theorem structural_error_characterisation :
    (∀ j : Json,
      isOkB (Keyboard.deserialize j) = specStructuralOk j ∧
      isOkB (KeyIterator.deserialize j) = specStructuralOk j) ∧
    isOkB (Keyboard.deserialize Json.null) = false ∧
    isOkB (KeyIterator.deserialize Json.null) = false := by
  refine ⟨?_, rfl, rfl⟩
  intro j
  constructor
  · rw [Keyboard.deserialize, isOkB_map, parse_isOk_eq_structuralOk]
  · rw [KeyIterator.deserialize, isOkB_map, parse_isOk_eq_structuralOk]

/-- C5: on every document on which both succeed, the keys of the
deserialised Keyboard equal the collected sequence of the deserialised
KeyIterator: both wrappers parse the same KleKeyboard and walk the same
layout. -/
theorem keyboard_keys_eq_collected_iterator :
    ∀ (j : Json) (kb : Keyboard) (ks : List Key),
      Keyboard.deserialize j = Except.ok kb →
      KeyIterator.deserialize j = Except.ok ks →
      kb.keys = ks := by
  intro j kb ks h1 h2
  cases hp : KleKeyboard.parse j with
  | error e =>
    rw [Keyboard.deserialize, hp] at h1
    exact absurd h1 (by simp [Except.map])
  | ok p =>
    rw [Keyboard.deserialize, hp] at h1
    rw [KeyIterator.deserialize, hp] at h2
    simp only [Except.map, Except.ok.injEq] at h1 h2
    rw [← h1, ← h2]

/-- Witness for C5 at a concrete document. -/
theorem keyboard_keys_eq_collected_iterator_witness :
    ({ metadata := metadataOf [], keys := kleKeys [[Json.str "A"]] } : Keyboard).keys =
      kleKeys [[Json.str "A"]] :=
  keyboard_keys_eq_collected_iterator (Json.arr [Json.arr [Json.str "A"]])
    { metadata := metadataOf [], keys := kleKeys [[Json.str "A"]] }
    (kleKeys [[Json.str "A"]]) rfl rfl

/-- C6: decoding is deterministic; two fresh deserialisations of the same
input tree yield identical Keyboard values, equal in metadata and keys. -/
theorem decode_deterministic :
    ∀ (j : Json) (kb1 kb2 : Keyboard),
      Keyboard.deserialize j = Except.ok kb1 →
      Keyboard.deserialize j = Except.ok kb2 →
      kb1.metadata = kb2.metadata ∧ kb1.keys = kb2.keys := by
  intro j kb1 kb2 h1 h2
  rw [h1, Except.ok.injEq] at h2
  rw [h2]
  exact ⟨rfl, rfl⟩

/-- Witness for C6 at a concrete document. -/
theorem decode_deterministic_witness :
    ({ metadata := metadataOf [], keys := kleKeys [[Json.str "A"]] } : Keyboard).metadata =
        ({ metadata := metadataOf [], keys := kleKeys [[Json.str "A"]] } : Keyboard).metadata ∧
      ({ metadata := metadataOf [], keys := kleKeys [[Json.str "A"]] } : Keyboard).keys =
        ({ metadata := metadataOf [], keys := kleKeys [[Json.str "A"]] } : Keyboard).keys :=
  decode_deterministic (Json.arr [Json.arr [Json.str "A"]]) _ _ rfl rfl

end Kle

namespace Kle

/-- Emission characterisation: a token produces a key exactly when it is a
label string, and then the key and next state come from emitKey. -/
lemma procToken_emit {s : KleProps} {t : Json} {k : Key}
    (h : (procToken s t).2 = some k) :
    ∃ txt, t = Json.str txt ∧ (procToken s t).1 = (emitKey s txt).1 ∧
      k = (emitKey s txt).2 := by
  cases t with
  | null => exact absurd h (by simp [procToken])
  | bool b => exact absurd h (by simp [procToken])
  | num q => exact absurd h (by simp [procToken])
  | arr es => exact absurd h (by simp [procToken])
  | obj fs => exact absurd h (by simp [procToken])
  | str txt =>
    refine ⟨txt, rfl, rfl, ?_⟩
    have : some (emitKey s txt).2 = some k := h
    exact (Option.some.injEq _ _ ▸ this).symm

/-- Generic invariant for one row of the walker: a state predicate preserved
by every allowed token, together with a key property guaranteed at emission
from an invariant state, holds of the final state and of every emitted key. -/
lemma procRowAux_inv (good : Json → Bool) (P : KleProps → Prop) (R : Key → Prop)
    (hTok : ∀ s t, good t = false → P s → P (procToken s t).1)
    (hEmit : ∀ s t k, good t = false → P s → (procToken s t).2 = some k → R k) :
    ∀ (row : List Json) (s : KleProps), P s → (∀ t ∈ row, good t = false) →
      P (procRowAux s row).1 ∧ ∀ k ∈ (procRowAux s row).2, R k := by
  intro row
  induction row with
  | nil =>
    intro s hP hG
    exact ⟨hP, by intro k hk; simp [procRowAux] at hk⟩
  | cons t ts ih =>
    intro s hP hG
    have hgt : good t = false := hG t (List.mem_cons_self t ts)
    have hgts : ∀ u ∈ ts, good u = false := fun u hu => hG u (List.mem_cons_of_mem t hu)
    have hrec := ih (procToken s t).1 (hTok s t hgt hP) hgts
    refine ⟨hrec.1, ?_⟩
    intro k hk
    simp only [procRowAux, List.mem_append] at hk
    rcases hk with hk | hk
    · rcases he : (procToken s t).2 with _ | k2
      · rw [he] at hk; simp at hk
      · rw [he] at hk
        simp only [List.mem_singleton] at hk
        subst hk
        exact hEmit s t k hgt hP he
    · exact hrec.2 k hk

/-- Generic invariant for the whole walker: if the state predicate is also
preserved by the between-rows cursor advance, it holds of the final state
and the key property holds of every emitted key. -/
lemma runRows_inv (good : Json → Bool) (P : KleProps → Prop) (R : Key → Prop)
    (hTok : ∀ s t, good t = false → P s → P (procToken s t).1)
    (hEmit : ∀ s t k, good t = false → P s → (procToken s t).2 = some k → R k)
    (hRow : ∀ s, P s → P (afterRow s)) :
    ∀ (rows : List (List Json)) (s : KleProps), P s →
      (∀ row ∈ rows, ∀ t ∈ row, good t = false) →
      P (runRows s rows).1 ∧ ∀ k ∈ (runRows s rows).2, R k := by
  intro rows
  induction rows with
  | nil =>
    intro s hP hG
    exact ⟨hP, by intro k hk; simp [runRows] at hk⟩
  | cons row rest ih =>
    intro s hP hG
    have hgr : ∀ t ∈ row, good t = false := hG row (List.mem_cons_self row rest)
    have hgrest : ∀ r ∈ rest, ∀ t ∈ r, good t = false :=
      fun r hr => hG r (List.mem_cons_of_mem row hr)
    have hrow := procRowAux_inv good P R hTok hEmit row s hP hgr
    have hrec := ih (afterRow (procRowAux s row).1) (hRow _ hrow.1) hgrest
    refine ⟨hrec.1, ?_⟩
    intro k hk
    simp only [runRows, List.mem_append] at hk
    rcases hk with hk | hk
    · exact hrow.2 k hk
    · exact hrec.2 k hk

/-- Size clamping lands in the closed range [1,9]. -/
lemma clampSize_bounds (n : Nat) : 1 ≤ clampSize n ∧ clampSize n ≤ 9 := by
  simp only [clampSize]
  omega

/-- One placement step preserves the legend-array length. -/
lemma placeLegend_length (s : KleProps) (acc : List (Option Legend)) (p : Nat × String) :
    (placeLegend s acc p).length = acc.length := by
  unfold placeLegend
  split
  · rfl
  · split
    · rfl
    · exact List.length_set acc _ _

/-- One placement step preserves clamped sizes of all present legends. -/
lemma placeLegend_sizes (s : KleProps) (acc : List (Option Legend)) (p : Nat × String)
    (h : ∀ o ∈ acc, ∀ leg, o = some leg → 1 ≤ leg.size ∧ leg.size ≤ 9) :
    ∀ o ∈ placeLegend s acc p, ∀ leg, o = some leg → 1 ≤ leg.size ∧ leg.size ≤ 9 := by
  unfold placeLegend
  split
  · exact h
  · split
    · exact h
    · intro o ho leg hleg
      rcases List.mem_or_eq_of_mem_set ho with hmem | heq
      · exact h o hmem leg hleg
      · rw [heq] at hleg
        injection hleg with h2
        rw [← h2]
        exact clampSize_bounds _

/-- Folding placement steps preserves length 12 and clamped sizes. -/
lemma foldl_place_ok (s : KleProps) :
    ∀ (ps : List (Nat × String)) (acc : List (Option Legend)),
      acc.length = NUM_LEGENDS →
      (∀ o ∈ acc, ∀ leg, o = some leg → 1 ≤ leg.size ∧ leg.size ≤ 9) →
      (ps.foldl (placeLegend s) acc).length = NUM_LEGENDS ∧
        ∀ o ∈ ps.foldl (placeLegend s) acc, ∀ leg, o = some leg →
          1 ≤ leg.size ∧ leg.size ≤ 9 := by
  intro ps
  induction ps with
  | nil => intro acc h1 h2; exact ⟨h1, h2⟩
  | cons p ps ih =>
    intro acc h1 h2
    simp only [List.foldl_cons]
    exact ih (placeLegend s acc p)
      (by rw [placeLegend_length]; exact h1)
      (placeLegend_sizes s acc p h2)

/-- The built legend array has length 12 and clamped sizes throughout. -/
lemma buildLegends_ok (s : KleProps) (lines : List String) :
    (buildLegends s lines).length = NUM_LEGENDS ∧
      ∀ o ∈ buildLegends s lines, ∀ leg, o = some leg →
        1 ≤ leg.size ∧ leg.size ≤ 9 := by
  unfold buildLegends
  refine foldl_place_ok s _ _ (List.length_replicate _ _) ?_
  intro o ho leg hleg
  rw [List.eq_of_mem_replicate ho] at hleg
  exact absurd hleg (by simp)

end Kle

namespace Kle

/-- Every key emitted by the walker has 12 legend slots and clamped sizes. -/
lemma runRows_legends_ok (rows : List (List Json)) (s : KleProps) :
    ∀ k ∈ (runRows s rows).2,
      k.legends.length = NUM_LEGENDS ∧
        ∀ o ∈ k.legends, ∀ leg, o = some leg → 1 ≤ leg.size ∧ leg.size ≤ 9 := by
  have h := runRows_inv (fun _ => false) (fun _ => True)
    (fun k => k.legends.length = NUM_LEGENDS ∧
      ∀ o ∈ k.legends, ∀ leg, o = some leg → 1 ≤ leg.size ∧ leg.size ≤ 9)
    (fun _ _ _ _ => trivial)
    (fun s2 t k _ _ he => by
      rcases procToken_emit he with ⟨txt, _, _, hk⟩
      rw [hk]
      exact buildLegends_ok s2 (splitLines txt))
    (fun _ _ => trivial)
    rows s trivial (fun _ _ _ _ => rfl)
  exact h.2

/-- C2: on every successfully decoded document, every emitted key has a
legends vector of length exactly 12, and every legend present in any slot
has size in the closed range [1,9]. -/
theorem decoded_keys_legends_invariant :
    ∀ (j : Json) (kb : Keyboard),
      Keyboard.deserialize j = Except.ok kb →
      ∀ k ∈ kb.keys,
        k.legends.length = NUM_LEGENDS ∧
          ∀ o ∈ k.legends, ∀ leg, o = some leg → 1 ≤ leg.size ∧ leg.size ≤ 9 := by
  intro j kb h
  cases hp : KleKeyboard.parse j with
  | error e =>
    rw [Keyboard.deserialize, hp] at h
    exact absurd h (by simp [Except.map])
  | ok p =>
    rw [Keyboard.deserialize, hp] at h
    simp only [Except.map, Except.ok.injEq] at h
    rw [← h]
    exact runRows_legends_ok p.2 initProps

/-- Witness for C2 at a concrete document. -/
theorem decoded_keys_legends_invariant_witness :
    (kleKeys [[Json.str "A"]]).headI.legends.length = NUM_LEGENDS :=
  (decoded_keys_legends_invariant (Json.arr [Json.arr [Json.str "A"]])
      { metadata := metadataOf [], keys := kleKeys [[Json.str "A"]] } rfl
      (kleKeys [[Json.str "A"]]).headI (by decide)).1

end Kle

namespace Kle

/-- A token overrides a field written by the given modifier codes exactly
when it is a modifier object holding one of those codes. -/
def touchesCodes (codes : List String) : Json → Bool
  | Json.obj fs => fs.any (fun p => codes.contains p.1)
  | _ => false

/-- Lookup of a code in an object body holding none of the given codes. -/
lemma olookup_eq_none_of_codes (codes : List String) (c : String) (hc : c ∈ codes) :
    ∀ fs : List (String × Json), fs.any (fun p => codes.contains p.1) = false →
      olookup fs c = none := by
  intro fs
  induction fs with
  | nil => intro _; rfl
  | cons p ps ih =>
    intro h
    simp only [List.any_cons, Bool.or_eq_false_iff] at h
    have hne : (c == p.1) = false := by
      refine beq_eq_false_iff_ne.mpr ?_
      intro e
      have hmem : p.1 ∈ codes := e ▸ hc
      have h2 := h.1
      simp at h2
      exact h2 hmem
    show List.lookup c (p :: ps) = none
    rcases p with ⟨a, v⟩
    simp only [List.lookup, hne]
    exact ih h.2

/-- A modifier object without the code c keeps the key colour. -/
lemma applyProps_keeps_keyColor (s : KleProps) (fs : List (String × Json))
    (h : olookup fs "c" = none) : (applyProps s fs).keyColor = s.keyColor := by
  simp [applyProps, h]

/-- A modifier object without the code p keeps the profile. -/
lemma applyProps_keeps_profile (s : KleProps) (fs : List (String × Json))
    (h : olookup fs "p" = none) : (applyProps s fs).profile = s.profile := by
  simp [applyProps, h]

/-- A modifier object without the code sm keeps the switch mount. -/
lemma applyProps_keeps_mount (s : KleProps) (fs : List (String × Json))
    (h : olookup fs "sm" = none) : (applyProps s fs).mount = s.mount := by
  simp [applyProps, h]

/-- A modifier object without the code sb keeps the switch brand. -/
lemma applyProps_keeps_brand (s : KleProps) (fs : List (String × Json))
    (h : olookup fs "sb" = none) : (applyProps s fs).brand = s.brand := by
  simp [applyProps, h]

/-- A modifier object without the code st keeps the switch type. -/
lemma applyProps_keeps_typ (s : KleProps) (fs : List (String × Json))
    (h : olookup fs "st" = none) : (applyProps s fs).typ = s.typ := by
  simp [applyProps, h]

/-- A modifier object without the code w keeps the width. -/
lemma applyProps_keeps_w (s : KleProps) (fs : List (String × Json))
    (h : olookup fs "w" = none) : (applyProps s fs).w = s.w := by
  simp [applyProps, h]

/-- A modifier object without the code h keeps the height. -/
lemma applyProps_keeps_h (s : KleProps) (fs : List (String × Json))
    (h : olookup fs "h" = none) : (applyProps s fs).h = s.h := by
  simp [applyProps, h]

/-- A modifier object without the code g keeps the ghosted flag. -/
lemma applyProps_keeps_ghosted (s : KleProps) (fs : List (String × Json))
    (h : olookup fs "g" = none) : (applyProps s fs).ghosted = s.ghosted := by
  simp [applyProps, h]

/-- A modifier object without the code l keeps the stepped flag. -/
lemma applyProps_keeps_stepped (s : KleProps) (fs : List (String × Json))
    (h : olookup fs "l" = none) : (applyProps s fs).stepped = s.stepped := by
  simp [applyProps, h]

/-- A modifier object without the code n keeps the homing flag. -/
lemma applyProps_keeps_homing (s : KleProps) (fs : List (String × Json))
    (h : olookup fs "n" = none) : (applyProps s fs).homing = s.homing := by
  simp [applyProps, h]

/-- A modifier object without the code d keeps the decal flag. -/
lemma applyProps_keeps_decal (s : KleProps) (fs : List (String × Json))
    (h : olookup fs "d" = none) : (applyProps s fs).decal = s.decal := by
  simp [applyProps, h]

/-- A modifier object without the code a keeps the alignment code. -/
lemma applyProps_keeps_align (s : KleProps) (fs : List (String × Json))
    (h : olookup fs "a" = none) : (applyProps s fs).align = s.align := by
  simp [applyProps, h]

/-- A modifier object without the code f keeps the scalar font default. -/
lemma applyProps_keeps_fontDefault (s : KleProps) (fs : List (String × Json))
    (h : olookup fs "f" = none) : (applyProps s fs).fontDefault = s.fontDefault := by
  simp [applyProps, h]

/-- A modifier object without the codes f and f2 keeps the secondary font
default. -/
lemma applyProps_keeps_f2Size (s : KleProps) (fs : List (String × Json))
    (hf : olookup fs "f" = none) (hf2 : olookup fs "f2" = none) :
    (applyProps s fs).f2Size = s.f2Size := by
  simp [applyProps, hf, hf2]

/-- A modifier object without the codes f and fa keeps the per-position
font sizes. -/
lemma applyProps_keeps_fontSizes (s : KleProps) (fs : List (String × Json))
    (hf : olookup fs "f" = none) (hfa : olookup fs "fa" = none) :
    (applyProps s fs).fontSizes = s.fontSizes := by
  simp [applyProps, hf, hfa]

/-- Generic per-field persistence through the walker: a state field whose
modifier update reads only the given codes, and which is unchanged by
emission and the between-rows advance, keeps its starting value across rows
whose tokens hold none of those codes, both in the final state and (through
the given key projection) on every emitted key. -/
lemma runRows_code_persist {α : Type} (codes : List String)
    (f : KleProps → α) (g : Key → α)
    (happ : ∀ (s2 : KleProps) (fs : List (String × Json)),
      (∀ c ∈ codes, olookup fs c = none) → f (applyProps s2 fs) = f s2)
    (hemitS : ∀ (s2 : KleProps) (txt : String), f (emitKey s2 txt).1 = f s2)
    (hemitK : ∀ (s2 : KleProps) (txt : String), g (emitKey s2 txt).2 = f s2)
    (hafter : ∀ s2 : KleProps, f (afterRow s2) = f s2) :
    ∀ (s : KleProps) (rows : List (List Json)),
      (∀ row ∈ rows, ∀ t ∈ row, touchesCodes codes t = false) →
      f (runRows s rows).1 = f s ∧ ∀ k ∈ (runRows s rows).2, g k = f s := by
  intro s rows hG
  refine runRows_inv (touchesCodes codes) (fun s2 => f s2 = f s) (fun k => g k = f s)
    (fun s2 t hg hP => ?_) (fun s2 t k hg hP he => ?_)
    (fun s2 hP => (hafter s2).trans hP)
    rows s rfl hG
  · cases t with
    | obj fs =>
      exact (happ s2 fs (fun c hc => olookup_eq_none_of_codes codes c hc fs hg)).trans hP
    | str txt => exact (hemitS s2 txt).trans hP
    | null => exact hP
    | bool b => exact hP
    | num q => exact hP
    | arr es => exact hP
  · rcases procToken_emit he with ⟨txt, _, _, hk⟩
    subst hk
    exact (hemitK s2 txt).trans hP

/-- Variant of the per-field persistence lemma for state-only fields, with
no conclusion about emitted keys. -/
lemma runRows_code_persist_state {α : Type} (codes : List String)
    (f : KleProps → α)
    (happ : ∀ (s2 : KleProps) (fs : List (String × Json)),
      (∀ c ∈ codes, olookup fs c = none) → f (applyProps s2 fs) = f s2)
    (hemitS : ∀ (s2 : KleProps) (txt : String), f (emitKey s2 txt).1 = f s2)
    (hafter : ∀ s2 : KleProps, f (afterRow s2) = f s2) :
    ∀ (s : KleProps) (rows : List (List Json)),
      (∀ row ∈ rows, ∀ t ∈ row, touchesCodes codes t = false) →
      f (runRows s rows).1 = f s := by
  intro s rows hG
  refine (runRows_inv (touchesCodes codes) (fun s2 => f s2 = f s) (fun _ => True)
    (fun s2 t hg hP => ?_) (fun s2 t k hg hP he => trivial)
    (fun s2 hP => (hafter s2).trans hP)
    rows s rfl hG).1
  cases t with
  | obj fs =>
    exact (happ s2 fs (fun c hc => olookup_eq_none_of_codes codes c hc fs hg)).trans hP
  | str txt => exact (hemitS s2 txt).trans hP
  | null => exact hP
  | bool b => exact hP
  | num q => exact hP
  | arr es => exact hP

end Kle

namespace Kle

/-- C8: per-field persistence law. From any walker state, each simple
scalar modifier field keeps its value across any rows whose tokens never
carry that particular field's code, regardless of what other modifier
fields those tokens set: colour, profile, each switch field, width, height
and the four booleans on the state and on every emitted key; the alignment
code and the font-size defaults (the state-only fields that shape later
legends) on the state. -/
theorem persistence_law :
    ∀ (s : KleProps) (rows : List (List Json)),
      ((∀ row ∈ rows, ∀ t ∈ row, touchesCodes ["c"] t = false) →
        (runRows s rows).1.keyColor = s.keyColor ∧
        ∀ k ∈ (runRows s rows).2, k.color = s.keyColor) ∧
      ((∀ row ∈ rows, ∀ t ∈ row, touchesCodes ["p"] t = false) →
        (runRows s rows).1.profile = s.profile ∧
        ∀ k ∈ (runRows s rows).2, k.profile = s.profile) ∧
      ((∀ row ∈ rows, ∀ t ∈ row, touchesCodes ["sm"] t = false) →
        (runRows s rows).1.mount = s.mount ∧
        ∀ k ∈ (runRows s rows).2, k.key_switch.mount = s.mount) ∧
      ((∀ row ∈ rows, ∀ t ∈ row, touchesCodes ["sb"] t = false) →
        (runRows s rows).1.brand = s.brand ∧
        ∀ k ∈ (runRows s rows).2, k.key_switch.brand = s.brand) ∧
      ((∀ row ∈ rows, ∀ t ∈ row, touchesCodes ["st"] t = false) →
        (runRows s rows).1.typ = s.typ ∧
        ∀ k ∈ (runRows s rows).2, k.key_switch.typ = s.typ) ∧
      ((∀ row ∈ rows, ∀ t ∈ row, touchesCodes ["w"] t = false) →
        (runRows s rows).1.w = s.w ∧
        ∀ k ∈ (runRows s rows).2, k.width = s.w) ∧
      ((∀ row ∈ rows, ∀ t ∈ row, touchesCodes ["h"] t = false) →
        (runRows s rows).1.h = s.h ∧
        ∀ k ∈ (runRows s rows).2, k.height = s.h) ∧
      ((∀ row ∈ rows, ∀ t ∈ row, touchesCodes ["g"] t = false) →
        (runRows s rows).1.ghosted = s.ghosted ∧
        ∀ k ∈ (runRows s rows).2, k.ghosted = s.ghosted) ∧
      ((∀ row ∈ rows, ∀ t ∈ row, touchesCodes ["l"] t = false) →
        (runRows s rows).1.stepped = s.stepped ∧
        ∀ k ∈ (runRows s rows).2, k.stepped = s.stepped) ∧
      ((∀ row ∈ rows, ∀ t ∈ row, touchesCodes ["n"] t = false) →
        (runRows s rows).1.homing = s.homing ∧
        ∀ k ∈ (runRows s rows).2, k.homing = s.homing) ∧
      ((∀ row ∈ rows, ∀ t ∈ row, touchesCodes ["d"] t = false) →
        (runRows s rows).1.decal = s.decal ∧
        ∀ k ∈ (runRows s rows).2, k.decal = s.decal) ∧
      ((∀ row ∈ rows, ∀ t ∈ row, touchesCodes ["a"] t = false) →
        (runRows s rows).1.align = s.align) ∧
      ((∀ row ∈ rows, ∀ t ∈ row, touchesCodes ["f", "f2", "fa"] t = false) →
        (runRows s rows).1.fontDefault = s.fontDefault ∧
        (runRows s rows).1.f2Size = s.f2Size ∧
        (runRows s rows).1.fontSizes = s.fontSizes) := by
  intro s rows
  refine ⟨?_, ?_, ?_, ?_, ?_, ?_, ?_, ?_, ?_, ?_, ?_, ?_, ?_⟩
  · exact runRows_code_persist ["c"] (fun s2 => s2.keyColor) (fun k => k.color)
      (fun s2 fs hof => applyProps_keeps_keyColor s2 fs (hof "c" (by decide)))
      (fun s2 txt => rfl) (fun s2 txt => rfl) (fun s2 => rfl) s rows
  · exact runRows_code_persist ["p"] (fun s2 => s2.profile) (fun k => k.profile)
      (fun s2 fs hof => applyProps_keeps_profile s2 fs (hof "p" (by decide)))
      (fun s2 txt => rfl) (fun s2 txt => rfl) (fun s2 => rfl) s rows
  · exact runRows_code_persist ["sm"] (fun s2 => s2.mount) (fun k => k.key_switch.mount)
      (fun s2 fs hof => applyProps_keeps_mount s2 fs (hof "sm" (by decide)))
      (fun s2 txt => rfl) (fun s2 txt => rfl) (fun s2 => rfl) s rows
  · exact runRows_code_persist ["sb"] (fun s2 => s2.brand) (fun k => k.key_switch.brand)
      (fun s2 fs hof => applyProps_keeps_brand s2 fs (hof "sb" (by decide)))
      (fun s2 txt => rfl) (fun s2 txt => rfl) (fun s2 => rfl) s rows
  · exact runRows_code_persist ["st"] (fun s2 => s2.typ) (fun k => k.key_switch.typ)
      (fun s2 fs hof => applyProps_keeps_typ s2 fs (hof "st" (by decide)))
      (fun s2 txt => rfl) (fun s2 txt => rfl) (fun s2 => rfl) s rows
  · exact runRows_code_persist ["w"] (fun s2 => s2.w) (fun k => k.width)
      (fun s2 fs hof => applyProps_keeps_w s2 fs (hof "w" (by decide)))
      (fun s2 txt => rfl) (fun s2 txt => rfl) (fun s2 => rfl) s rows
  · exact runRows_code_persist ["h"] (fun s2 => s2.h) (fun k => k.height)
      (fun s2 fs hof => applyProps_keeps_h s2 fs (hof "h" (by decide)))
      (fun s2 txt => rfl) (fun s2 txt => rfl) (fun s2 => rfl) s rows
  · exact runRows_code_persist ["g"] (fun s2 => s2.ghosted) (fun k => k.ghosted)
      (fun s2 fs hof => applyProps_keeps_ghosted s2 fs (hof "g" (by decide)))
      (fun s2 txt => rfl) (fun s2 txt => rfl) (fun s2 => rfl) s rows
  · exact runRows_code_persist ["l"] (fun s2 => s2.stepped) (fun k => k.stepped)
      (fun s2 fs hof => applyProps_keeps_stepped s2 fs (hof "l" (by decide)))
      (fun s2 txt => rfl) (fun s2 txt => rfl) (fun s2 => rfl) s rows
  · exact runRows_code_persist ["n"] (fun s2 => s2.homing) (fun k => k.homing)
      (fun s2 fs hof => applyProps_keeps_homing s2 fs (hof "n" (by decide)))
      (fun s2 txt => rfl) (fun s2 txt => rfl) (fun s2 => rfl) s rows
  · exact runRows_code_persist ["d"] (fun s2 => s2.decal) (fun k => k.decal)
      (fun s2 fs hof => applyProps_keeps_decal s2 fs (hof "d" (by decide)))
      (fun s2 txt => rfl) (fun s2 txt => rfl) (fun s2 => rfl) s rows
  · exact runRows_code_persist_state ["a"] (fun s2 => s2.align)
      (fun s2 fs hof => applyProps_keeps_align s2 fs (hof "a" (by decide)))
      (fun s2 txt => rfl) (fun s2 => rfl) s rows
  · intro hG
    refine ⟨?_, ?_, ?_⟩
    · exact runRows_code_persist_state ["f", "f2", "fa"] (fun s2 => s2.fontDefault)
        (fun s2 fs hof => applyProps_keeps_fontDefault s2 fs (hof "f" (by decide)))
        (fun s2 txt => rfl) (fun s2 => rfl) s rows hG
    · exact runRows_code_persist_state ["f", "f2", "fa"] (fun s2 => s2.f2Size)
        (fun s2 fs hof =>
          applyProps_keeps_f2Size s2 fs (hof "f" (by decide)) (hof "f2" (by decide)))
        (fun s2 txt => rfl) (fun s2 => rfl) s rows hG
    · exact runRows_code_persist_state ["f", "f2", "fa"] (fun s2 => s2.fontSizes)
        (fun s2 fs hof =>
          applyProps_keeps_fontSizes s2 fs (hof "f" (by decide)) (hof "fa" (by decide)))
        (fun s2 txt => rfl) (fun s2 => rfl) s rows hG

/-- Witness for C8: the key colour persists onto the state and the emitted
key across a document whose modifier token sets a different persistent
field (the profile). -/
theorem persistence_law_witness :
    (runRows initProps [[Json.obj [("p", Json.str "DSA")], Json.str "A"]]).1.keyColor =
        initProps.keyColor ∧
      (runRows initProps [[Json.obj [("p", Json.str "DSA")], Json.str "A"]]).2.headI.color =
        initProps.keyColor :=
  ⟨((persistence_law initProps [[Json.obj [("p", Json.str "DSA")], Json.str "A"]]).1
      (by decide)).1,
   ((persistence_law initProps [[Json.obj [("p", Json.str "DSA")], Json.str "A"]]).1
      (by decide)).2
    (runRows initProps [[Json.obj [("p", Json.str "DSA")], Json.str "A"]]).2.headI
    (List.Mem.head _)⟩

end Kle

namespace Kle

/-- Modifier codes that write the one-shot stepped-part geometry. -/
def oneShotCodes : List String := ["x2", "y2", "w2", "h2"]

/-- A token re-supplies a one-shot field exactly when it is a modifier
object holding one of the one-shot codes. -/
def touchesOneShot : Json → Bool
  | Json.obj fs => fs.any (fun p => oneShotCodes.contains p.1)
  | _ => false

/-- A modifier object holding no one-shot code leaves the pending one-shot
fields of the walker state unchanged. -/
lemma applyProps_oneshot (s : KleProps) (fs : List (String × Json))
    (h : fs.any (fun p => oneShotCodes.contains p.1) = false) :
    (applyProps s fs).x2 = s.x2 ∧ (applyProps s fs).y2 = s.y2 ∧
      (applyProps s fs).w2 = s.w2 ∧ (applyProps s fs).h2 = s.h2 := by
  have hof : ∀ c ∈ oneShotCodes, olookup fs c = none := fun c hc =>
    olookup_eq_none_of_codes oneShotCodes c hc fs h
  have hx2 := hof "x2" (by decide)
  have hy2 := hof "y2" (by decide)
  have hw2 := hof "w2" (by decide)
  have hh2 := hof "h2" (by decide)
  refine ⟨?_, ?_, ?_, ?_⟩ <;> simp [applyProps, hx2, hy2, hw2, hh2]

/-- C9: one-shot law. Emitting a key always resets the pending x2, y2,
width2 and height2 values; and from a state with no pending one-shot values,
processing rows that never re-supply them yields only keys with x2 = 0,
y2 = 0, width2 equal to their width and height2 equal to their height. -/
theorem one_shot_law :
    (∀ (s : KleProps) (t : Json) (s2 : KleProps) (k : Key),
        procToken s t = (s2, some k) →
        s2.x2 = none ∧ s2.y2 = none ∧ s2.w2 = none ∧ s2.h2 = none) ∧
    ∀ (s : KleProps) (rows : List (List Json)),
      s.x2 = none → s.y2 = none → s.w2 = none → s.h2 = none →
      (∀ row ∈ rows, ∀ t ∈ row, touchesOneShot t = false) →
      ∀ k ∈ (runRows s rows).2,
        k.x2 = 0 ∧ k.y2 = 0 ∧ k.width2 = k.width ∧ k.height2 = k.height := by
  constructor
  · intro s t s2 k h
    cases t with
    | str txt =>
      have h1 : (emitKey s txt).1 = s2 := congrArg Prod.fst h
      rw [← h1]
      exact ⟨rfl, rfl, rfl, rfl⟩
    | null => exact absurd (congrArg Prod.snd h) (by simp [procToken])
    | bool b => exact absurd (congrArg Prod.snd h) (by simp [procToken])
    | num q => exact absurd (congrArg Prod.snd h) (by simp [procToken])
    | arr es => exact absurd (congrArg Prod.snd h) (by simp [procToken])
    | obj fs => exact absurd (congrArg Prod.snd h) (by simp [procToken])
  · intro s rows h1 h2 h3 h4 hG
    refine (runRows_inv touchesOneShot
      (fun s2 => s2.x2 = none ∧ s2.y2 = none ∧ s2.w2 = none ∧ s2.h2 = none)
      (fun k => k.x2 = 0 ∧ k.y2 = 0 ∧ k.width2 = k.width ∧ k.height2 = k.height)
      (fun s2 t hg hP => ?_) (fun s2 t k hg hP he => ?_) (fun s2 hP => hP)
      rows s ⟨h1, h2, h3, h4⟩ hG).2
    · cases t with
      | obj fs =>
        have ha := applyProps_oneshot s2 fs hg
        exact ⟨ha.1.trans hP.1, ha.2.1.trans hP.2.1,
          ha.2.2.1.trans hP.2.2.1, ha.2.2.2.trans hP.2.2.2⟩
      | str txt => exact ⟨rfl, rfl, rfl, rfl⟩
      | null => exact hP
      | bool b => exact hP
      | num q => exact hP
      | arr es => exact hP
    · rcases procToken_emit he with ⟨txt, _, _, hk⟩
      subst hk
      refine ⟨?_, ?_, ?_, ?_⟩
      · show s2.x2.getD 0 = 0
        rw [hP.1]; rfl
      · show s2.y2.getD 0 = 0
        rw [hP.2.1]; rfl
      · show s2.w2.getD s2.w = s2.w
        rw [hP.2.2.1]; rfl
      · show s2.h2.getD s2.h = s2.h
        rw [hP.2.2.2]; rfl

/-- Witness for C9 at a concrete state and document. -/
theorem one_shot_law_witness :
    (runRows initProps [[Json.str "A"]]).2.headI.x2 = 0 ∧
      (runRows initProps [[Json.str "A"]]).2.headI.y2 = 0 ∧
      (runRows initProps [[Json.str "A"]]).2.headI.width2 =
        (runRows initProps [[Json.str "A"]]).2.headI.width ∧
      (runRows initProps [[Json.str "A"]]).2.headI.height2 =
        (runRows initProps [[Json.str "A"]]).2.headI.height :=
  one_shot_law.2 initProps [[Json.str "A"]] rfl rfl rfl rfl (by decide)
    (runRows initProps [[Json.str "A"]]).2.headI (by decide)

end Kle

namespace Kle

/-- The background-colour modifier code, as a singleton code list. -/
def colorCode : List String := ["c"]

/-- A token sets the key background colour exactly when it is a modifier
object holding the code c. -/
def touchesColorCode : Json → Bool
  | Json.obj fs => fs.any (fun p => colorCode.contains p.1)
  | _ => false

/-- A modifier object without the code c leaves the key colour unchanged. -/
lemma applyProps_keyColor (s : KleProps) (fs : List (String × Json))
    (h : fs.any (fun p => colorCode.contains p.1) = false) :
    (applyProps s fs).keyColor = s.keyColor := by
  have hc : olookup fs "c" = none :=
    olookup_eq_none_of_codes colorCode "c" (by decide) fs h
  simp [applyProps, hc]

/-- C10: the concrete default colours at the public interface are pinned and
fully opaque: the default key colour is #CCCCCC, kept by every key decoded
with no c directive; the default metadata background colour is #EEEEEE; and
the default legend colour is #000000, also the walker's initial default
legend colour. -/
theorem default_colours_pinned :
    Key.default.color = Color.new 0xCC 0xCC 0xCC 0xFF ∧
    Metadata.default.background_color = Color.new 0xEE 0xEE 0xEE 0xFF ∧
    Legend.default.color = Color.new 0x00 0x00 0x00 0xFF ∧
    initProps.keyColor = Color.new 0xCC 0xCC 0xCC 0xFF ∧
    initProps.defaultTextColor = Color.new 0x00 0x00 0x00 0xFF ∧
    ∀ rows : List (List Json),
      (∀ row ∈ rows, ∀ t ∈ row, touchesColorCode t = false) →
      ∀ k ∈ (runRows initProps rows).2, k.color = Color.new 0xCC 0xCC 0xCC 0xFF := by
  refine ⟨rfl, rfl, rfl, rfl, rfl, ?_⟩
  intro rows hG
  refine (runRows_inv touchesColorCode
    (fun s => s.keyColor = Color.new 0xCC 0xCC 0xCC 0xFF)
    (fun k => k.color = Color.new 0xCC 0xCC 0xCC 0xFF)
    (fun s t hg hP => ?_) (fun s t k hg hP he => ?_) (fun s hP => hP)
    rows initProps rfl hG).2
  · cases t with
    | obj fs => exact (applyProps_keyColor s fs hg).trans hP
    | str txt => exact hP
    | null => exact hP
    | bool b => exact hP
    | num q => exact hP
    | arr es => exact hP
  · rcases procToken_emit he with ⟨txt, _, _, hk⟩
    subst hk
    exact hP

/-- Witness for C10 at a concrete document. -/
theorem default_colours_pinned_witness :
    (runRows initProps [[Json.str "A"]]).2.headI.color = Color.new 0xCC 0xCC 0xCC 0xFF :=
  default_colours_pinned.2.2.2.2.2 [[Json.str "A"]] (by decide)
    (runRows initProps [[Json.str "A"]]).2.headI (by decide)

end Kle

namespace Kle

/-- The notes string of the metadata test, an apostrophe followed by the
words tis a test. -/
def tisATest : String := String.mk (Char.ofNat 39 :: "tis a test".data)

/-- Deserialisation of a document whose first element is an object reduces
to row checking and the metadata decode of that object. -/
lemma deserialize_obj_first (fields : List (String × Json)) (rest : List Json) :
    Keyboard.deserialize (Json.arr (Json.obj fields :: rest)) =
      Except.map (fun rs => { metadata := metadataOf fields, keys := kleKeys rs })
        (parseRows 1 rest) := by
  cases hq : parseRows 1 rest with
  | error e => simp [Keyboard.deserialize, KleKeyboard.parse, hq, Except.map]
  | ok rs => simp [Keyboard.deserialize, KleKeyboard.parse, hq, Except.map]

/-- Deserialisation of a document whose first element is an array reduces to
row checking with entirely default metadata. -/
lemma deserialize_arr_first (row : List Json) (rest : List Json) :
    Keyboard.deserialize (Json.arr (Json.arr row :: rest)) =
      Except.map (fun rs => { metadata := metadataOf [], keys := kleKeys rs })
        (parseRows 0 (Json.arr row :: rest)) := by
  cases hq : parseRows 0 (Json.arr row :: rest) with
  | error e => simp [Keyboard.deserialize, KleKeyboard.parse, hq, Except.map]
  | ok rs => simp [Keyboard.deserialize, KleKeyboard.parse, hq, Except.map]

/-- Unknown fields are ignored by the metadata decoder. -/
lemma metadataOf_cons_unknown (k : String) (v : Json) (fields : List (String × Json))
    (h : recognizedMetaKeys.contains k = false) :
    metadataOf ((k, v) :: fields) = metadataOf fields := by
  have hb : ∀ c ∈ recognizedMetaKeys, (c == k) = false := by
    intro c hc
    refine beq_eq_false_iff_ne.mpr ?_
    intro e
    rw [← e] at h
    simp at h
    exact h hc
  have hl : ∀ c ∈ recognizedMetaKeys, olookup ((k, v) :: fields) c = olookup fields c := by
    intro c hc
    show List.lookup c ((k, v) :: fields) = List.lookup c fields
    simp only [List.lookup, hb c hc]
  simp only [metadataOf, hl "backcolor" (by decide), hl "background" (by decide),
    hl "radii" (by decide), hl "name" (by decide), hl "author" (by decide),
    hl "switchMount" (by decide), hl "switchBrand" (by decide),
    hl "switchType" (by decide), hl "plate" (by decide), hl "pcb" (by decide),
    hl "notes" (by decide)]

/-- C4: the metadata of a decoded keyboard comes from the first top-level
element exactly when that element is an object, decoded field-by-field with
absent fields defaulted and unknown fields ignored; when the first element
is an array the metadata is entirely default.  The two test scenarios are
included: a lone notes object decodes to that notes value with zero keys,
and a lone single-label row decodes to fully default metadata with exactly
one key. -/
theorem metadata_contract :
    (∀ (fields : List (String × Json)) (rest : List Json) (kb : Keyboard),
        Keyboard.deserialize (Json.arr (Json.obj fields :: rest)) = Except.ok kb →
        kb.metadata = metadataOf fields) ∧
    (∀ (row : List Json) (rest : List Json) (kb : Keyboard),
        Keyboard.deserialize (Json.arr (Json.arr row :: rest)) = Except.ok kb →
        kb.metadata = Metadata.default) ∧
    metadataOf [] = Metadata.default ∧
    (∀ (k : String) (v : Json) (fields : List (String × Json)),
        recognizedMetaKeys.contains k = false →
        metadataOf ((k, v) :: fields) = metadataOf fields) ∧
    okPart (Keyboard.deserialize (Json.arr [Json.obj [("notes", Json.str tisATest)]])) =
      some { metadata := { Metadata.default with notes := tisATest }, keys := [] } ∧
    (okPart (Keyboard.deserialize (Json.arr [Json.arr [Json.str "A"]]))).map
      (fun kb => (kb.metadata, kb.keys.length)) = some (Metadata.default, 1) := by
  refine ⟨?_, ?_, by decide, metadataOf_cons_unknown, by decide, by decide⟩
  · intro fields rest kb h
    rw [deserialize_obj_first] at h
    cases hq : parseRows 1 rest with
    | error e =>
      rw [hq] at h
      exact absurd h (by simp [Except.map])
    | ok rs =>
      rw [hq] at h
      simp only [Except.map, Except.ok.injEq] at h
      rw [← h]
  · intro row rest kb h
    rw [deserialize_arr_first] at h
    cases hq : parseRows 0 (Json.arr row :: rest) with
    | error e =>
      rw [hq] at h
      exact absurd h (by simp [Except.map])
    | ok rs =>
      rw [hq] at h
      simp only [Except.map, Except.ok.injEq] at h
      rw [← h]
      show metadataOf [] = Metadata.default
      decide

/-- Witness for C4 at a concrete document. -/
theorem metadata_contract_witness :
    ({ metadata := metadataOf [("name", Json.str "x")], keys := kleKeys [] } : Keyboard).metadata =
      metadataOf [("name", Json.str "x")] :=
  metadata_contract.1 [("name", Json.str "x")] []
    { metadata := metadataOf [("name", Json.str "x")], keys := kleKeys [] } rfl

end Kle

namespace Kle

/-- The document of the keyboard and key-iterator deserialisation tests:
a metadata object with an unknown field, a row with an alignment modifier
(also holding an unknown field) and three labels, then a one-label row. -/
def testDocument : Json :=
  Json.arr
    [ Json.obj [("name", Json.str "test"), ("unknown", Json.str "key")]
    , Json.arr [Json.obj [("a", Json.num 4), ("unknown2", Json.str "key")],
        Json.str "A", Json.str "B", Json.str "C"]
    , Json.arr [Json.str "D"] ]

/-- C3: the test document decodes successfully along both entry points; the
metadata name is test, exactly 4 keys are emitted in document order, and the
key at index 2 holds the legend C in slot 0; the unknown fields in the
metadata object and in the modifier object are ignored without error. -/
theorem scenario_four_keys :
    (okPart (Keyboard.deserialize testDocument)).map (fun kb => kb.metadata.name) =
      some "test" ∧
    (okPart (Keyboard.deserialize testDocument)).map (fun kb => kb.keys.length) =
      some 4 ∧
    ((okPart (Keyboard.deserialize testDocument)).bind (fun kb => kb.keys.get? 2)).map
      (fun k => ((k.legends.get? 0).join).map Legend.text) = some (some "C") ∧
    (okPart (KeyIterator.deserialize testDocument)).map List.length = some 4 ∧
    ((okPart (KeyIterator.deserialize testDocument)).bind (fun ks => ks.get? 2)).map
      (fun k => ((k.legends.get? 0).join).map Legend.text) = some (some "C") := by
  refine ⟨by decide, by decide, by decide, by decide, by decide⟩

/-- The document holding the single label of the crate-level example, four
raw legend lines under the default alignment. -/
def bangDocument : Json := Json.arr [Json.arr [Json.str "!\n1\n¹\n¡"]]

/-- C7: under the default alignment code 4, the label whose lines are the
exclamation mark, the digit one, the superscript one and the inverted
exclamation mark decodes raw position 0 to canonical slot 0 and raw
position 1 to canonical slot 6, leaves canonical slot 1 empty, and gives
every produced legend the default size 3. -/
theorem scenario_alignment_four :
    initProps.align = 4 ∧
    ((okPart (KeyIterator.deserialize bangDocument)).bind (fun ks => ks.get? 0)).map
      (fun k => (k.legends.get? 0).join) =
      some (some { text := "!", size := 3, color := color.LEGEND }) ∧
    ((okPart (KeyIterator.deserialize bangDocument)).bind (fun ks => ks.get? 0)).map
      (fun k => (k.legends.get? 6).join) =
      some (some { text := "1", size := 3, color := color.LEGEND }) ∧
    ((okPart (KeyIterator.deserialize bangDocument)).bind (fun ks => ks.get? 0)).map
      (fun k => (k.legends.get? 1).join) = some none := by
  refine ⟨rfl, by decide, by decide, by decide⟩

end Kle
